import Mathlib

/-!
Shallow embedding of the SettleOne session core
(src/backend/src/models/session.rs, src/backend/src/services/session.rs,
src/backend/src/api/session.rs) and proofs about it.

Machine integers are modelled as `Nat` with explicit `2 ^ 128` bounds where
the Rust code uses `u128`. Timestamps (`DateTime<Utc>`) are opaque to the
session logic and are modelled as `Nat` values supplied by the caller.
The store's `HashMap<String, Session>` is modelled by its observable
behaviour: a function from keys to optional sessions, with insert
overwriting the previous binding.
-/

deriving instance DecidableEq for Except

namespace SettleOne

/-- `SessionStatus` from models/session.rs. -/
inductive SessionStatus where
  | Active
  | Pending
  | Settled
  | Cancelled
deriving DecidableEq

/-- `PaymentStatus` from models/session.rs. -/
inductive PaymentStatus where
  | Pending
  | Confirmed
  | Settled
deriving DecidableEq

/-- `Payment` from models/session.rs. -/
structure Payment where
  id : String
  recipient : String
  recipient_ens : Option String
  amount : String
  status : PaymentStatus
  created_at : Nat
deriving DecidableEq

/-- `Session` from models/session.rs. -/
structure Session where
  id : String
  user : String
  status : SessionStatus
  payments : List Payment
  total_amount : String
  created_at : Nat
deriving DecidableEq

/-- Rust's `str::parse::<u128>()`: an optional leading `+` sign followed by
one or more ASCII decimal digits, value below `2 ^ 128`; anything else
(empty string, other characters, or a value out of range) fails. -/
def parseU128 (s : String) : Option Nat :=
  let ds : List Char :=
    match s.data with
    | '+' :: rest => rest
    | cs => cs
  if ds.isEmpty then none
  else if ds.all Char.isDigit then
    let v := ds.foldl (fun acc c => acc * 10 + (c.toNat - 48)) 0
    if v < 2 ^ 128 then some v else none
  else none

/-- The loop body of `Session::recalculate_total`: fold the payment list,
parsing each amount and accumulating with a checked (`u128`) addition. -/
def recalcGo : Nat → List Payment → Except String Nat
  | total, [] => .ok total
  | total, p :: rest =>
    match parseU128 p.amount with
    | some amount =>
      if total + amount < 2 ^ 128 then recalcGo (total + amount) rest
      else .error "Total amount overflow"
    | none => .error ("Failed to parse payment amount: " ++ p.amount)

/-- `Session::recalculate_total` (models/session.rs lines 72-92). On
success the recomputed decimal total is written to `total_amount`; on
failure the session is returned unchanged (the Rust method assigns
`total_amount` only after the loop finishes). -/
def Session.recalculate_total (s : Session) : Session × Except String Unit :=
  match recalcGo 0 s.payments with
  | .ok total => ({ s with total_amount := Nat.repr total }, .ok ())
  | .error e => (s, .error e)

/-- `Session::add_payment` (models/session.rs lines 61-69): push the
payment, recalculate; if recalculation fails, pop the payment back off
(rollback) and return the error. -/
def Session.add_payment (s : Session) (p : Payment) : Session × Except String Unit :=
  let pushed : Session := { s with payments := s.payments ++ [p] }
  match pushed.recalculate_total with
  | (s1, .ok ()) => (s1, .ok ())
  | (_, .error e) => (s, .error e)

/-- `Session::new` (models/session.rs lines 49-58). -/
def Session.new (id user : String) (now : Nat) : Session :=
  { id := id
    user := user
    status := SessionStatus.Active
    payments := []
    total_amount := "0"
    created_at := now }

/-- `SessionStore` (services/session.rs): the `HashMap<String, Session>`
modelled by its lookup function. -/
structure SessionStore where
  sessions : String → Option Session

/-- `SessionStore::new`. -/
def SessionStore.new : SessionStore :=
  ⟨fun _ => none⟩

/-- `HashMap::insert`: overwrite the binding for `id`. -/
def SessionStore.insertSession (st : SessionStore) (id : String) (s : Session) : SessionStore :=
  ⟨fun k => if k = id then some s else st.sessions k⟩

/-- `SessionStore::create` (services/session.rs lines 25-30): build a fresh
session, insert it under `id` (overwriting any existing binding), and
return the snapshot. -/
def SessionStore.create (st : SessionStore) (id user : String) (now : Nat) :
    Session × SessionStore :=
  let session := Session.new id user now
  (session, st.insertSession id session)

/-- `SessionStore::get` (services/session.rs lines 33-36). -/
def SessionStore.get (st : SessionStore) (id : String) : Option Session :=
  st.sessions id

/-- `SessionStore::add_payment` (services/session.rs lines 39-46). Note:
the Rust code calls `session.add_payment(payment);` and discards the
returned `Result`, then returns `Some(session.clone())` for any present
session — so the entity-level error is dropped here. -/
def SessionStore.add_payment (st : SessionStore) (id : String) (p : Payment) :
    Option Session × SessionStore :=
  match st.sessions id with
  | some s =>
    let r := s.add_payment p
    (some r.1, st.insertSession id r.1)
  | none => (none, st)

/-- `SessionStore::update_status` (services/session.rs lines 49-56). -/
def SessionStore.update_status (st : SessionStore) (id : String) (status : SessionStatus) :
    Option Session × SessionStore :=
  match st.sessions id with
  | some s =>
    let s1 : Session := { s with status := status }
    (some s1, st.insertSession id s1)
  | none => (none, st)

/-- Modelled from the spec: `AppError` lives in `api/error.rs`, which is
absent from the sources (only its caller `api/session.rs` references
`crate::api::error::AppError`). Spec section 7 lists `NotFound` as the
lookup-failure condition surfaced at the boundary; the handlers build it
from a message string. Only the `NotFound` constructor is exercised by the
session handlers. -/
inductive AppError where
  | NotFound : String → AppError
deriving DecidableEq

/-- `AddPaymentRequest` from api/session.rs. -/
structure AddPaymentRequest where
  recipient : String
  recipient_ens : Option String
  amount : String
deriving DecidableEq

/-- `SessionResponse` from api/session.rs. -/
structure SessionResponse where
  session : Session
deriving DecidableEq

/-- `FinalizeResponse` from api/session.rs. -/
structure FinalizeResponse where
  session_id : String
  status : String
  tx_hash : Option String
deriving DecidableEq

namespace Api

/-- Handler `add_payment` (api/session.rs lines 80-111): build a `Payment`
from the request (fresh id and timestamp supplied by the caller), then
call the store; `Some` maps to an `Ok` session response, `None` to
`AppError::NotFound`. -/
def add_payment (st : SessionStore) (id : String) (payload : AddPaymentRequest)
    (paymentId : String) (now : Nat) : Except AppError SessionResponse × SessionStore :=
  let payment : Payment :=
    { id := paymentId
      recipient := payload.recipient
      recipient_ens := payload.recipient_ens
      amount := payload.amount
      status := PaymentStatus.Pending
      created_at := now }
  match st.add_payment id payment with
  | (some session, st1) => (.ok ⟨session⟩, st1)
  | (none, st1) =>
    (.error (.NotFound ("Session " ++ id ++ " not found or payment failed")), st1)

/-- Handler `finalize_session` (api/session.rs lines 121-146): set the
status to `Pending` via the store; on success return a placeholder
response carrying only the id, the literal status string "pending", and no
transaction hash; on a missing session return `NotFound`. -/
def finalize_session (st : SessionStore) (id : String) :
    Except AppError FinalizeResponse × SessionStore :=
  match st.update_status id SessionStatus.Pending with
  | (some _, st1) => (.ok ⟨id, "pending", none⟩, st1)
  | (none, st1) => (.error (.NotFound ("Session " ++ id ++ " not found")), st1)

end Api

/-- Numeric value of a payment's amount (0 for unparseable amounts; the
invariants below always establish parseability wherever this default could
matter). -/
def paymentValue (p : Payment) : Nat :=
  (parseU128 p.amount).getD 0

/-- Sum of the payments' amounts as unsigned integers. -/
def paymentsSum (ps : List Payment) : Nat :=
  (ps.map paymentValue).sum

/-- Store states reachable from a fresh store by the four operations
(`get` does not change state). -/
inductive Reachable : SessionStore → Prop where
  | init : Reachable SessionStore.new
  | create (st : SessionStore) (id user : String) (now : Nat) :
      Reachable st → Reachable (st.create id user now).2
  | add_payment (st : SessionStore) (id : String) (p : Payment) :
      Reachable st → Reachable (st.add_payment id p).2
  | update_status (st : SessionStore) (id : String) (status : SessionStatus) :
      Reachable st → Reachable (st.update_status id status).2

/-! ### Basic facts about payment sums and the recalculation loop -/

theorem paymentsSum_nil : paymentsSum [] = 0 := rfl

theorem paymentsSum_cons (p : Payment) (ps : List Payment) :
    paymentsSum (p :: ps) = paymentValue p + paymentsSum ps := by
  simp [paymentsSum]

theorem paymentsSum_append (l1 l2 : List Payment) :
    paymentsSum (l1 ++ l2) = paymentsSum l1 + paymentsSum l2 := by
  simp [paymentsSum]

/-- Unfolding equation for the recalculation loop on a nonempty list. -/
theorem recalcGo_cons (total : Nat) (p : Payment) (rest : List Payment) :
    recalcGo total (p :: rest) =
      match parseU128 p.amount with
      | some a =>
        if total + a < 2 ^ 128 then recalcGo (total + a) rest
        else .error "Total amount overflow"
      | none => .error ("Failed to parse payment amount: " ++ p.amount) := rfl

/-- If the recalculation loop succeeds, every amount parses and the result
is the accumulator plus the sum of the amounts. -/
theorem recalcGo_ok {ps : List Payment} :
    ∀ {total n : Nat}, recalcGo total ps = .ok n →
      (∀ p ∈ ps, (parseU128 p.amount).isSome) ∧ n = total + paymentsSum ps := by
  induction ps with
  | nil =>
    intro total n h
    simp only [recalcGo, Except.ok.injEq] at h
    simp [paymentsSum, h.symm]
  | cons p rest ih =>
    intro total n h
    cases hp : parseU128 p.amount with
    | none => simp [recalcGo_cons, hp] at h
    | some a =>
      simp only [recalcGo_cons, hp] at h
      by_cases hb : total + a < 2 ^ 128
      · rw [if_pos hb] at h
        obtain ⟨hall, hn⟩ := ih h
        refine ⟨?_, ?_⟩
        · intro q hq
          rcases List.mem_cons.mp hq with rfl | hq
          · simp [hp]
          · exact hall q hq
        · have hv : paymentValue p = a := by simp [paymentValue, hp]
          rw [paymentsSum_cons, hv]
          omega
      · rw [if_neg hb] at h
        exact absurd h (by simp)

/-- When every amount parses, the recalculation loop either returns the
full sum or fails with the overflow message, depending only on whether the
sum fits in a `u128`. -/
theorem recalcGo_all_parse {ps : List Payment} :
    ∀ {total : Nat}, total < 2 ^ 128 → (∀ p ∈ ps, (parseU128 p.amount).isSome) →
      recalcGo total ps =
        if total + paymentsSum ps < 2 ^ 128 then .ok (total + paymentsSum ps)
        else .error "Total amount overflow" := by
  induction ps with
  | nil =>
    intro total ht _
    rw [paymentsSum_nil, if_pos (by omega)]
    rfl
  | cons p rest ih =>
    intro total ht hall
    obtain ⟨a, ha⟩ := Option.isSome_iff_exists.mp (hall p (by simp))
    have hv : paymentValue p = a := by simp [paymentValue, ha]
    have hrest : ∀ q ∈ rest, (parseU128 q.amount).isSome :=
      fun q hq => hall q (List.mem_cons_of_mem _ hq)
    simp only [recalcGo_cons, ha]
    by_cases hb : total + a < 2 ^ 128
    · rw [if_pos hb, ih hb hrest, paymentsSum_cons, hv]
      have : total + a + paymentsSum rest = total + (a + paymentsSum rest) := by omega
      rw [this]
    · rw [if_neg hb, paymentsSum_cons, hv,
        if_neg (by have := Nat.zero_le (paymentsSum rest); omega)]

/-- The overflow message is never a parse-failure message. -/
theorem overflow_ne_parse_msg (a : String) :
    ("Failed to parse payment amount: " ++ a) ≠ "Total amount overflow" := by
  intro h
  have h2 := congrArg String.length h
  rw [String.length_append] at h2
  have hl1 : ("Failed to parse payment amount: ").length = 32 := rfl
  have hl2 : ("Total amount overflow").length = 21 := rfl
  omega

/-- The recalculation loop fails with a parse error exactly when the
payment list splits as `l1 ++ q :: l2` with every amount in `l1` parsing,
their running sum still within `u128` range, and `q`'s amount failing to
parse — i.e. when the first anomaly met while scanning is an unparseable
amount rather than an overflow. -/
theorem recalcGo_parse_error {ps : List Payment} :
    ∀ {total : Nat}, total < 2 ^ 128 →
      ((∃ a, recalcGo total ps = .error ("Failed to parse payment amount: " ++ a)) ↔
        ∃ l1 q l2, ps = l1 ++ q :: l2 ∧ (∀ r ∈ l1, (parseU128 r.amount).isSome) ∧
          parseU128 q.amount = none ∧ total + paymentsSum l1 < 2 ^ 128) := by
  induction ps with
  | nil =>
    intro total ht
    constructor
    · rintro ⟨a, h⟩
      exact absurd h (by simp [recalcGo])
    · rintro ⟨l1, q, l2, h, -⟩
      exact absurd h (by simp)
  | cons p rest ih =>
    intro total ht
    cases hp : parseU128 p.amount with
    | none =>
      constructor
      · intro _
        exact ⟨[], p, rest, rfl, by simp, hp, by rw [paymentsSum_nil]; omega⟩
      · intro _
        exact ⟨p.amount, by simp [recalcGo, hp]⟩
    | some a =>
      by_cases hb : total + a < 2 ^ 128
      · have hstep : recalcGo total (p :: rest) = recalcGo (total + a) rest := by
          simp only [recalcGo_cons, hp]
          rw [if_pos hb]
        rw [hstep, ih hb]
        have hv : paymentValue p = a := by simp [paymentValue, hp]
        constructor
        · rintro ⟨l1, q, l2, hsplit, hall, hq, hsum⟩
          refine ⟨p :: l1, q, l2, by rw [hsplit]; rfl, ?_, hq, ?_⟩
          · intro r hr
            rcases List.mem_cons.mp hr with rfl | hr
            · simp [hp]
            · exact hall r hr
          · rw [paymentsSum_cons, hv]; omega
        · rintro ⟨l1, q, l2, hsplit, hall, hq, hsum⟩
          cases l1 with
          | nil =>
            simp only [List.nil_append, List.cons.injEq] at hsplit
            rw [hsplit.1] at hp
            rw [hp] at hq
            exact absurd hq (by simp)
          | cons x l1t =>
            simp only [List.cons_append, List.cons.injEq] at hsplit
            obtain ⟨rfl, hrest⟩ := hsplit
            refine ⟨l1t, q, l2, hrest, fun r hr => hall r (List.mem_cons_of_mem _ hr), hq, ?_⟩
            rw [paymentsSum_cons, hv] at hsum
            omega
      · have hstep : recalcGo total (p :: rest) = .error "Total amount overflow" := by
          simp only [recalcGo_cons, hp]
          rw [if_neg hb]
        rw [hstep]
        constructor
        · rintro ⟨a', ha'⟩
          exact absurd (Except.error.inj ha').symm (overflow_ne_parse_msg a')
        · rintro ⟨l1, q, l2, hsplit, hall, hq, hsum⟩
          exfalso
          cases l1 with
          | nil =>
            simp only [List.nil_append, List.cons.injEq] at hsplit
            rw [hsplit.1] at hp
            rw [hp] at hq
            exact absurd hq (by simp)
          | cons x l1t =>
            simp only [List.cons_append, List.cons.injEq] at hsplit
            obtain ⟨rfl, -⟩ := hsplit
            have hv : paymentValue p = a := by simp [paymentValue, hp]
            rw [paymentsSum_cons, hv] at hsum
            have := Nat.zero_le (paymentsSum l1t)
            omega

/-- `Session.add_payment` unfolded through `recalculate_total` to a single
case split on the recalculation loop. -/
theorem add_payment_eq (s : Session) (p : Payment) :
    s.add_payment p =
      match recalcGo 0 (s.payments ++ [p]) with
      | .ok total =>
        ({ s with payments := s.payments ++ [p], total_amount := Nat.repr total }, .ok ())
      | .error e => (s, .error e) := by
  unfold Session.add_payment Session.recalculate_total
  simp only
  cases h : recalcGo 0 (s.payments ++ [p]) <;> rfl

/-! ### The total-amount invariant over reachable store states -/

/-- Per-session invariant: every stored payment amount parses as `u128`
and `total_amount` is the decimal rendering of their sum. -/
def TotalInvariant (s : Session) : Prop :=
  (∀ p ∈ s.payments, (parseU128 p.amount).isSome) ∧
  s.total_amount = Nat.repr (paymentsSum s.payments)

theorem totalInvariant_new (id user : String) (now : Nat) :
    TotalInvariant (Session.new id user now) := by
  constructor
  · intro p hp
    simp [Session.new] at hp
  · show "0" = Nat.repr (paymentsSum [])
    decide

theorem totalInvariant_add_payment {s : Session} (h : TotalInvariant s) (p : Payment) :
    TotalInvariant (s.add_payment p).1 := by
  rw [add_payment_eq]
  cases hg : recalcGo 0 (s.payments ++ [p]) with
  | ok t =>
    obtain ⟨hall, ht⟩ := recalcGo_ok hg
    have h2 : Nat.repr t = Nat.repr (paymentsSum (s.payments ++ [p])) := by
      rw [ht, Nat.zero_add]
    exact ⟨hall, h2⟩
  | error e => exact h

/-- Store invariant: every stored session satisfies `TotalInvariant`. -/
def StoreInvariant (st : SessionStore) : Prop :=
  ∀ id s, st.sessions id = some s → TotalInvariant s

theorem storeInvariant_new : StoreInvariant SessionStore.new := by
  intro id s h
  exact absurd h (by simp [SessionStore.new])

theorem storeInvariant_insert {st : SessionStore} {s : Session}
    (hst : StoreInvariant st) (hs : TotalInvariant s) (id : String) :
    StoreInvariant (st.insertSession id s) := by
  intro k s2 h
  simp only [SessionStore.insertSession] at h
  by_cases hk : k = id
  · rw [if_pos hk] at h
    injection h with h
    rw [← h]
    exact hs
  · rw [if_neg hk] at h
    exact hst k s2 h

/-- Every reachable store state satisfies the invariant. -/
theorem storeInvariant_reachable {st : SessionStore} (h : Reachable st) :
    StoreInvariant st := by
  induction h with
  | init => exact storeInvariant_new
  | create st id user now _ ih =>
    exact storeInvariant_insert ih (totalInvariant_new id user now) id
  | add_payment st id p _ ih =>
    cases hs : st.sessions id with
    | some s =>
      have heq : (st.add_payment id p).2 = st.insertSession id (s.add_payment p).1 := by
        simp [SessionStore.add_payment, hs]
      rw [heq]
      exact storeInvariant_insert ih (totalInvariant_add_payment (ih id s hs) p) id
    | none =>
      have heq : (st.add_payment id p).2 = st := by
        simp [SessionStore.add_payment, hs]
      rw [heq]
      exact ih
  | update_status st id status _ ih =>
    cases hs : st.sessions id with
    | some s =>
      have heq : (st.update_status id status).2 =
          st.insertSession id { s with status := status } := by
        simp [SessionStore.update_status, hs]
      rw [heq]
      have hinv : TotalInvariant { s with status := status } := ih id s hs
      exact storeInvariant_insert ih hinv id
    | none =>
      have heq : (st.update_status id status).2 = st := by
        simp [SessionStore.update_status, hs]
      rw [heq]
      exact ih

/-! ### Generic consequences of `Session.add_payment` -/

/-- On any entity-level failure the session is returned exactly as it was:
the push is rolled back and `total_amount` was never assigned. -/
theorem add_payment_error_aux (s : Session) (p : Payment) {e : String}
    (h : (s.add_payment p).2 = .error e) : (s.add_payment p).1 = s := by
  cases hg : recalcGo 0 (s.payments ++ [p]) with
  | ok t =>
    rw [add_payment_eq, hg] at h
    simp at h
  | error e2 =>
    rw [add_payment_eq, hg]

/-- The entity-level result is an error exactly when the recalculation
loop over the pushed payment list is. -/
theorem add_payment_snd_error (s : Session) (p : Payment) (e : String) :
    (s.add_payment p).2 = .error e ↔ recalcGo 0 (s.payments ++ [p]) = .error e := by
  rw [add_payment_eq]
  cases hg : recalcGo 0 (s.payments ++ [p]) with
  | ok t => simp
  | error e2 => simp

/-! ### Concrete fixtures used by the closed theorems -/

/-- A store holding the single fresh session `"s1"` for `"alice"`. -/
def demoStore : SessionStore := (SessionStore.new.create "s1" "alice" 0).2

/-- The same store but with `"s1"` owned by `"bob"`. -/
def demoStoreB : SessionStore := (SessionStore.new.create "s1" "bob" 0).2

/-- Scenario A first payment: 1000000 to 0xR1. -/
def alicePayment1 : Payment :=
  ⟨"p1", "0xR1", none, "1000000", PaymentStatus.Pending, 0⟩

/-- Scenario A second payment: 2000000 to 0xR2. -/
def alicePayment2 : Payment :=
  ⟨"p2", "0xR2", none, "2000000", PaymentStatus.Pending, 0⟩

/-- A payment whose amount string is not numeric (Scenario B). -/
def abcPayment : Payment :=
  ⟨"p-abc", "0xR3", none, "abc", PaymentStatus.Pending, 0⟩

/-- A payment carrying the largest `u128` value. -/
def maxPayment : Payment :=
  ⟨"p-max", "0xR1", none, "340282366920938463463374607431768211455", PaymentStatus.Pending, 0⟩

/-- A payment of one unit. -/
def onePayment : Payment :=
  ⟨"p-one", "0xR2", none, "1", PaymentStatus.Pending, 0⟩

/-- A payment whose amount is the decimal digit string for `2 ^ 128`: a
valid non-negative integer, but out of `u128` range. -/
def hugePayment : Payment :=
  ⟨"p-huge", "0xR1", none, "340282366920938463463374607431768211456", PaymentStatus.Pending, 0⟩

/-- A session already holding the `u128` maximum: one more unit overflows. -/
def maxSession : Session :=
  { Session.new "s-max" "alice" 0 with
    payments := [maxPayment]
    total_amount := "340282366920938463463374607431768211455" }

/-- A session whose payment list overflows before its end. -/
def overflowFirstSession : Session :=
  { Session.new "s-ov" "alice" 0 with
    payments := [maxPayment, onePayment] }

/-! ### Claim theorems -/

/-- C1 (code observed at the failing input): for the present session
`"s1"` the store's `add_payment` with the invalid amount `"abc"` does not
apply the mutation, but it reports `some` of the unchanged session — the
same successful shape returned for a valid payment — and the API handler
consequently answers `Ok`; only the missing-session case yields `none`
(`NotFound`). The entity-level error is computed and then discarded by
`SessionStore::add_payment`, so an invalid payment is not reported as a
failure at all, contradicting the claim that a failure distinguishable
from "session not found" is reported. -/
theorem store_add_payment_drops_entity_error :
    ((Session.new "s1" "alice" 0).add_payment abcPayment).2 =
      .error "Failed to parse payment amount: abc" ∧
    (demoStore.add_payment "s1" abcPayment).1 = some (Session.new "s1" "alice" 0) ∧
    (Api.add_payment demoStore "s1" ⟨"0xR3", none, "abc"⟩ "p-abc" 0).1 =
      .ok ⟨Session.new "s1" "alice" 0⟩ ∧
    (SessionStore.new.add_payment "s1" abcPayment).1 = none := by
  decide

/-- C2: in every store state reachable by any sequence of create, get,
add_payment and update_status operations, every stored session's
`total_amount` is the decimal rendering of the exact sum of its payments'
amounts read as unsigned integers (and all of those amounts parse). -/
theorem reachable_total_amount_eq_sum (st : SessionStore) (id : String) (s : Session)
    (h1 : Reachable st) (h2 : st.get id = some s) :
    (∀ p ∈ s.payments, (parseU128 p.amount).isSome) ∧
    s.total_amount = Nat.repr (paymentsSum s.payments) :=
  storeInvariant_reachable h1 id s h2

theorem reachable_total_amount_eq_sum_witness :
    (∀ p ∈ (Session.new "s1" "alice" 0).payments, (parseU128 p.amount).isSome) ∧
    (Session.new "s1" "alice" 0).total_amount =
      Nat.repr (paymentsSum (Session.new "s1" "alice" 0).payments) :=
  reachable_total_amount_eq_sum (SessionStore.new.create "s1" "alice" 0).2 "s1"
    (Session.new "s1" "alice" 0)
    (Reachable.create SessionStore.new "s1" "alice" 0 Reachable.init)
    (by decide)

/-- C3: whenever the entity-level `add_payment` fails, the resulting
session is exactly the session before the call — in particular its
payments sequence and `total_amount` are unchanged. -/
theorem add_payment_failure_rollback (s : Session) (p : Payment) (e : String)
    (h : (s.add_payment p).2 = .error e) :
    (s.add_payment p).1 = s :=
  add_payment_error_aux s p h

theorem add_payment_failure_rollback_witness :
    ((Session.new "s1" "alice" 0).add_payment abcPayment).1 = Session.new "s1" "alice" 0 :=
  add_payment_failure_rollback (Session.new "s1" "alice" 0) abcPayment
    "Failed to parse payment amount: abc" (by decide)

/-- C4: when every amount involved parses as a `u128`, the entity-level
`add_payment` fails with the overflow error exactly when the sum of all
amounts exceeds the `u128` maximum, and on that failure the session is
unmodified. -/
theorem add_payment_overflow_iff (s : Session) (p : Payment)
    (h : ∀ r ∈ s.payments ++ [p], (parseU128 r.amount).isSome) :
    ((s.add_payment p).2 = .error "Total amount overflow" ↔
      2 ^ 128 - 1 < paymentsSum (s.payments ++ [p])) ∧
    ((s.add_payment p).2 = .error "Total amount overflow" → (s.add_payment p).1 = s) := by
  have hrec := recalcGo_all_parse (show (0:Nat) < 2 ^ 128 by norm_num) h
  constructor
  · rw [add_payment_eq, hrec]
    by_cases hb : 0 + paymentsSum (s.payments ++ [p]) < 2 ^ 128
    · rw [if_pos hb]
      constructor
      · intro hcontr
        simp at hcontr
      · intro hsum
        exact absurd hsum (by omega)
    · rw [if_neg hb]
      constructor
      · intro _
        omega
      · intro _
        rfl
  · intro he
    exact add_payment_error_aux s p he

theorem add_payment_overflow_iff_witness :
    (maxSession.add_payment onePayment).2 = .error "Total amount overflow" ∧
    (maxSession.add_payment onePayment).1 = maxSession := by
  have h := add_payment_overflow_iff maxSession onePayment (by decide)
  have he := h.1.mpr (by decide)
  exact ⟨he, h.2 he⟩

/-- C5 counterexample: the claim "InvalidAmount iff some amount is not a
valid non-negative integer" fails in both directions. First, the amount
`2 ^ 128` is a nonempty decimal digit string — a valid non-negative
integer in the claim's arbitrary-precision sense — yet adding it fails
with the parse-failure (InvalidAmount) error, because `u128` parsing
rejects out-of-range values. Second, a session whose earlier payments
already overflow reports the overflow error, not InvalidAmount, even
though the added amount `"abc"` is not a valid integer. -/
theorem invalid_amount_iff_counterexample :
    (((Session.new "s-h" "alice" 0).add_payment hugePayment).2 =
        .error "Failed to parse payment amount: 340282366920938463463374607431768211456" ∧
      hugePayment.amount.data ≠ [] ∧
      hugePayment.amount.data.all Char.isDigit = true) ∧
    ((overflowFirstSession.add_payment abcPayment).2 = .error "Total amount overflow" ∧
      abcPayment.amount.data.all Char.isDigit = false) := by
  decide

/-- C5 amended: the entity-level `add_payment` fails with the
parse-failure (InvalidAmount) error exactly when the pushed payment list
splits as `l1 ++ q :: l2` where every amount in `l1` parses as `u128`,
their sum is still within `u128` range, and `q`'s amount does not parse
as `u128` (an optional `+` followed by decimal digits denoting a value
below `2 ^ 128`) — i.e. the first anomaly met scanning in order is an
unparseable amount rather than an overflow. -/
theorem add_payment_parse_error_iff (s : Session) (p : Payment) :
    (∃ a, (s.add_payment p).2 = .error ("Failed to parse payment amount: " ++ a)) ↔
    (∃ l1 q l2, s.payments ++ [p] = l1 ++ q :: l2 ∧
      (∀ r ∈ l1, (parseU128 r.amount).isSome) ∧
      parseU128 q.amount = none ∧ paymentsSum l1 < 2 ^ 128) := by
  have h1 : (∃ a, (s.add_payment p).2 = .error ("Failed to parse payment amount: " ++ a)) ↔
      (∃ a, recalcGo 0 (s.payments ++ [p]) =
        .error ("Failed to parse payment amount: " ++ a)) :=
    exists_congr fun a => add_payment_snd_error s p _
  rw [h1, recalcGo_parse_error (show (0:Nat) < 2 ^ 128 by norm_num)]
  constructor
  · rintro ⟨l1, q, l2, hsp, hall, hq, hsum⟩
    exact ⟨l1, q, l2, hsp, hall, hq, by omega⟩
  · rintro ⟨l1, q, l2, hsp, hall, hq, hsum⟩
    exact ⟨l1, q, l2, hsp, hall, hq, by omega⟩

theorem add_payment_parse_error_iff_witness :
    ∃ a, ((Session.new "s-w" "w" 0).add_payment abcPayment).2 =
      .error ("Failed to parse payment amount: " ++ a) :=
  (add_payment_parse_error_iff (Session.new "s-w" "w" 0) abcPayment).mpr
    ⟨[], abcPayment, [], rfl, by simp, by decide, by decide⟩

/-- C6 counterexample: `finalize_session` does not return the updated
snapshot. Two stores whose sessions under `"s1"` differ (different users)
produce identical finalize responses, while their updated snapshots
differ — so the response cannot be the updated snapshot; it only carries
the id, the literal status string "pending", and no transaction hash. -/
theorem finalize_not_snapshot_counterexample :
    (Api.finalize_session demoStore "s1").1 = (Api.finalize_session demoStoreB "s1").1 ∧
    (demoStore.update_status "s1" SessionStatus.Pending).1 ≠
      (demoStoreB.update_status "s1" SessionStatus.Pending).1 := by
  decide

/-- C6 amended: `update_status` unconditionally overwrites the status of a
present session with the given value — any value, whatever the current
status, with no transition-table check — and returns the updated snapshot,
or `none` when the session is absent; `finalize_session` performs exactly
`update_status(id, Pending)` on the store and returns a fixed
acknowledgement (the id, the literal status "pending", no transaction
hash) when the session exists, else the not-found error — it does not
return the full updated snapshot. -/
theorem update_status_finalize_spec (st : SessionStore) (id : String) (status : SessionStatus) :
    (∀ s, st.sessions id = some s →
      st.update_status id status =
        (some { s with status := status }, st.insertSession id { s with status := status })) ∧
    (st.sessions id = none → st.update_status id status = (none, st)) ∧
    (Api.finalize_session st id).2 = (st.update_status id SessionStatus.Pending).2 ∧
    ((Api.finalize_session st id).1 = .ok ⟨id, "pending", none⟩ ↔ (st.sessions id).isSome) ∧
    ((Api.finalize_session st id).1 =
        .error (.NotFound ("Session " ++ id ++ " not found")) ↔ st.sessions id = none) := by
  refine ⟨?_, ?_, ?_, ?_, ?_⟩
  · intro s hs
    simp [SessionStore.update_status, hs]
  · intro hs
    simp [SessionStore.update_status, hs]
  · cases hs : st.sessions id <;>
      simp [Api.finalize_session, SessionStore.update_status, hs]
  · cases hs : st.sessions id <;>
      simp [Api.finalize_session, SessionStore.update_status, hs]
  · cases hs : st.sessions id <;>
      simp [Api.finalize_session, SessionStore.update_status, hs]

theorem update_status_finalize_spec_witness :
    demoStore.update_status "s1" SessionStatus.Settled =
      (some { Session.new "s1" "alice" 0 with status := SessionStatus.Settled },
        demoStore.insertSession "s1"
          { Session.new "s1" "alice" 0 with status := SessionStatus.Settled }) ∧
    (Api.finalize_session demoStore "s1").1 = .ok ⟨"s1", "pending", none⟩ :=
  ⟨(update_status_finalize_spec demoStore "s1" SessionStatus.Settled).1
      (Session.new "s1" "alice" 0) (by decide),
    ((update_status_finalize_spec demoStore "s1" SessionStatus.Settled).2.2.2.1).mpr
      (by decide)⟩

/-- C7: for every id and user, `create` followed immediately by `get`
with the created id returns the created snapshot: status Active, empty
payments, total `"0"`. -/
theorem create_then_get_fresh_session (st : SessionStore) (id user : String) (now : Nat) :
    (st.create id user now).2.get id = some ((st.create id user now).1) ∧
    (st.create id user now).1.status = SessionStatus.Active ∧
    (st.create id user now).1.payments = [] ∧
    (st.create id user now).1.total_amount = "0" := by
  refine ⟨?_, rfl, rfl, rfl⟩
  simp [SessionStore.create, SessionStore.get, SessionStore.insertSession]

/-- C8 (Scenario A): starting from a fresh session, adding a payment of
`"1000000"` and then one of `"2000000"` both succeed and leave two
payments with total `"3000000"`. -/
theorem scenario_two_payments_total :
    ((Session.new "sess-a" "alice" 0).add_payment alicePayment1).2 = .ok () ∧
    (((Session.new "sess-a" "alice" 0).add_payment alicePayment1).1.add_payment
      alicePayment2).2 = .ok () ∧
    (((Session.new "sess-a" "alice" 0).add_payment alicePayment1).1.add_payment
      alicePayment2).1.payments.length = 2 ∧
    (((Session.new "sess-a" "alice" 0).add_payment alicePayment1).1.add_payment
      alicePayment2).1.total_amount = "3000000" := by
  decide

/-- C9: on a successful entity-level `add_payment`, the payments sequence
gains exactly the one appended element and the id, user, status and
created_at fields are unchanged (only `total_amount` may change besides
the payment list). -/
theorem add_payment_success_frame (s : Session) (p : Payment)
    (h : (s.add_payment p).2 = .ok ()) :
    (s.add_payment p).1.payments = s.payments ++ [p] ∧
    (s.add_payment p).1.id = s.id ∧
    (s.add_payment p).1.user = s.user ∧
    (s.add_payment p).1.status = s.status ∧
    (s.add_payment p).1.created_at = s.created_at := by
  cases hg : recalcGo 0 (s.payments ++ [p]) with
  | ok t =>
    rw [add_payment_eq, hg]
    exact ⟨rfl, rfl, rfl, rfl, rfl⟩
  | error e =>
    rw [add_payment_eq, hg] at h
    simp at h

theorem add_payment_success_frame_witness :
    ((Session.new "sess-a" "alice" 0).add_payment alicePayment1).1.payments =
      (Session.new "sess-a" "alice" 0).payments ++ [alicePayment1] ∧
    ((Session.new "sess-a" "alice" 0).add_payment alicePayment1).1.id =
      (Session.new "sess-a" "alice" 0).id ∧
    ((Session.new "sess-a" "alice" 0).add_payment alicePayment1).1.user =
      (Session.new "sess-a" "alice" 0).user ∧
    ((Session.new "sess-a" "alice" 0).add_payment alicePayment1).1.status =
      (Session.new "sess-a" "alice" 0).status ∧
    ((Session.new "sess-a" "alice" 0).add_payment alicePayment1).1.created_at =
      (Session.new "sess-a" "alice" 0).created_at :=
  add_payment_success_frame (Session.new "sess-a" "alice" 0) alicePayment1 (by decide)

/-- C10: calling the store's `create` with an id already bound silently
replaces the existing session: the call still returns the fresh Active
session (empty payments, total `"0"`) and a subsequent lookup under that
id yields the fresh session, not the prior one. -/
theorem create_overwrites_existing (st : SessionStore) (id user : String) (now : Nat)
    (old : Session) (h : st.sessions id = some old) :
    (st.create id user now).1 = Session.new id user now ∧
    (st.create id user now).2.get id = some (Session.new id user now) := by
  refine ⟨rfl, ?_⟩
  simp [SessionStore.create, SessionStore.get, SessionStore.insertSession]

theorem create_overwrites_existing_witness :
    (demoStore.create "s1" "bob" 5).1 = Session.new "s1" "bob" 5 ∧
    (demoStore.create "s1" "bob" 5).2.get "s1" = some (Session.new "s1" "bob" 5) :=
  create_overwrites_existing demoStore "s1" "bob" 5 (Session.new "s1" "alice" 0) (by decide)

end SettleOne
